import Mathlib

/-!
# Verification of the dataset startup script execution core

Shallow embedding of `src/lib/dataset_startup_script.py`: the source
rewriter (`parse_and_compile_code`), the execution sandbox with stream
redirection (`execute_code`), the audit logger (`RequestLogger.log`) and
the service facade (`run_python`, `get_docs`).

Python source text is modelled at the level of its parse outcome: a
`SubmittedCode` is either a parsed list of top-level statements or a
syntax-error diagnostic (mirroring `ast.parse` which either returns a
tree or raises `SyntaxError`).  Statements and expressions form a small
language sufficient to exercise every code path of the executor:
variable lookup (which can raise `NameError`), assignment, `print` to
the current stdout/stderr targets, addition (which can raise
`TypeError`), and an explicit `raise`.
-/

namespace DatasetScript

/-- Python runtime values flowing through the shared namespace. -/
inductive Val where
  | none
  | int (n : Int)
  | str (s : String)
deriving DecidableEq

/-- Python `repr` of a value, as interpolated by `f"Result: {result!r}"`. -/
def Val.pyRepr : Val → String
  | Val.none => "None"
  | Val.int n => toString n
  | Val.str s => "\x27" ++ s ++ "\x27"

/-- Python `str` of a value, as written by `print`. -/
def Val.pyStr : Val → String
  | Val.none => "None"
  | Val.int n => toString n
  | Val.str s => s

/-- The shared namespace: the `environment` dict passed to `exec`. -/
abbrev Env := List (String × Val)

/-- `environment.get(k)` restricted to presence: `dict` lookup. -/
def envGet (env : Env) (k : String) : Option Val :=
  match env.find? (fun p => p.1 == k) with
  | some p => some p.2
  | Option.none => Option.none

/-- `environment[k] = v`: update in place or append. -/
def envSet (env : Env) (k : String) (v : Val) : Env :=
  match env with
  | [] => [(k, v)]
  | (k₁, v₁) :: rest => if k₁ = k then (k, v) :: rest else (k₁, v₁) :: envSet rest k v

/-- Where `sys.stdout` (resp. `sys.stderr`) currently points: the host
process stream, or the per-call `io.StringIO` capture buffer installed
by `redirect_stdout` / `redirect_stderr`. -/
inductive StreamTarget where
  | host
  | buffer
deriving DecidableEq

/-- The mutable world visible to one `exec` call: the shared namespace,
the two capture buffers (`f_stdout`, `f_stderr`), the host process
streams, and the current redirection targets. -/
structure SysState where
  env : Env
  bufOut : String
  bufErr : String
  hostOut : String
  hostErr : String
  stdoutTarget : StreamTarget
  stderrTarget : StreamTarget
deriving DecidableEq

/-- Write `s` to whatever `sys.stdout` currently designates. -/
def writeOut (s : String) (st : SysState) : SysState :=
  match st.stdoutTarget with
  | StreamTarget.buffer => { st with bufOut := st.bufOut ++ s }
  | StreamTarget.host => { st with hostOut := st.hostOut ++ s }

/-- Write `s` to whatever `sys.stderr` currently designates. -/
def writeErr (s : String) (st : SysState) : SysState :=
  match st.stderrTarget with
  | StreamTarget.buffer => { st with bufErr := st.bufErr ++ s }
  | StreamTarget.host => { st with hostErr := st.hostErr ++ s }

/-- A raised Python exception: its class name and message. -/
structure PyError where
  kind : String
  msg : String
deriving DecidableEq

/-- Modelled rendering of `traceback.format_exc()`: the trace header
followed by the fault kind and message, as Python prints them. -/
def traceback_format_exc (e : PyError) : String :=
  "Traceback (most recent call last):\n  File \x22<agent-code>\x22, line 1, in <module>\n"
    ++ e.kind ++ ": " ++ e.msg ++ "\n"

/-- Expressions of the hosted language. -/
inductive Expr where
  | lit (v : Val)
  | var (name : String)
  | add (a b : Expr)
  | printE (e : Expr)
  | printErrE (e : Expr)
deriving DecidableEq

/-- Top-level statements of the hosted language.  `exprStmt` is the
`ast.Expr` node the rewriter looks for; `passStmt` stands for any other
non-expression statement (definition, control flow, ...). -/
inductive Stmt where
  | exprStmt (e : Expr)
  | assign (name : String) (e : Expr)
  | raiseStmt (kind msg : String)
  | passStmt
deriving DecidableEq

/-- Evaluate an expression: may write to the current stream targets and
may raise. Expressions never mutate the namespace or the targets. -/
def evalExpr : Expr → SysState → SysState × Except PyError Val
  | Expr.lit v, st => (st, Except.ok v)
  | Expr.var x, st =>
    match envGet st.env x with
    | some v => (st, Except.ok v)
    | Option.none => (st, Except.error ⟨"NameError", "name \x27" ++ x ++ "\x27 is not defined"⟩)
  | Expr.add a b, st =>
    match evalExpr a st with
    | (st₁, Except.error e) => (st₁, Except.error e)
    | (st₁, Except.ok v₁) =>
      match evalExpr b st₁ with
      | (st₂, Except.error e) => (st₂, Except.error e)
      | (st₂, Except.ok v₂) =>
        match v₁, v₂ with
        | Val.int m, Val.int n => (st₂, Except.ok (Val.int (m + n)))
        | Val.str s, Val.str t => (st₂, Except.ok (Val.str (s ++ t)))
        | _, _ => (st₂, Except.error ⟨"TypeError", "unsupported operand type(s) for +"⟩)
  | Expr.printE e, st =>
    match evalExpr e st with
    | (st₁, Except.error err) => (st₁, Except.error err)
    | (st₁, Except.ok v) => (writeOut (v.pyStr ++ "\n") st₁, Except.ok Val.none)
  | Expr.printErrE e, st =>
    match evalExpr e st with
    | (st₁, Except.error err) => (st₁, Except.error err)
    | (st₁, Except.ok v) => (writeErr (v.pyStr ++ "\n") st₁, Except.ok Val.none)

/-- Execute one statement: result `none` means normal completion, a
`some` carries the raised exception; namespace mutations and stream
writes made before the raise are retained in the returned state. -/
def execStmt : Stmt → SysState → SysState × Option PyError
  | Stmt.exprStmt e, st =>
    match evalExpr e st with
    | (st₁, Except.ok _) => (st₁, Option.none)
    | (st₁, Except.error err) => (st₁, some err)
  | Stmt.assign x e, st =>
    match evalExpr e st with
    | (st₁, Except.ok v) => ({ st₁ with env := envSet st₁.env x v }, Option.none)
    | (st₁, Except.error err) => (st₁, some err)
  | Stmt.raiseStmt k m, st => (st, some ⟨k, m⟩)
  | Stmt.passStmt, st => (st, Option.none)

/-- Execute a statement sequence, stopping at the first raise (the
semantics of `exec` on a module body). -/
def execStmts : List Stmt → SysState → SysState × Option PyError
  | [], st => (st, Option.none)
  | s :: rest, st =>
    match execStmt s st with
    | (st₁, Option.none) => execStmts rest st₁
    | (st₁, some err) => (st₁, some err)

/-- A submitted source text, modelled at its parse outcome: `ast.parse`
either yields the list of top-level statements or raises `SyntaxError`
with a diagnostic. -/
inductive SubmittedCode where
  | parsed (stmts : List Stmt)
  | invalid (diag : String)
deriving DecidableEq

/-- `parse_and_compile_code` (lines 124-148): parse, then if the last
top-level statement is a bare expression, replace it with an assignment
of that expression to `_ai_result` and set the capture flag.  Returns
the compiled body and the `capture_result` flag, or the syntax-error
diagnostic. -/
def parse_and_compile_code : SubmittedCode → Except String (List Stmt × Bool)
  | SubmittedCode.invalid diag => Except.error diag
  | SubmittedCode.parsed stmts =>
    match stmts.getLast? with
    | some (Stmt.exprStmt e) =>
      Except.ok (stmts.dropLast ++ [Stmt.assign "_ai_result" e], true)
    | _ => Except.ok (stmts, false)

/-- The state in which `exec` starts inside the two `redirect` context
managers: fresh `StringIO` buffers, both streams redirected to them. -/
def sandboxEntry (st : SysState) : SysState :=
  { st with bufOut := "", bufErr := "",
            stdoutTarget := StreamTarget.buffer, stderrTarget := StreamTarget.buffer }

/-- `result = environment.get("_ai_result") if capture_result else None`.
A missing key yields Python `None` via `dict.get`. -/
def capturedVal (capture_result : Bool) (env : Env) : Val :=
  if capture_result then (envGet env "_ai_result").getD Val.none else Val.none

/-- The `output_parts` list built in `execute_code` (lines 172-178):
an Output section iff stdout text is non-empty, a Stderr section iff
stderr text is non-empty, a Result section iff the captured value is
not `None`. -/
def output_parts (out err : String) (result : Val) : List String :=
  (if out ≠ "" then ["Output:\n" ++ out] else [])
    ++ (if err ≠ "" then ["Stderr:\n" ++ err] else [])
    ++ (if result ≠ Val.none then ["Result: " ++ result.pyRepr] else [])

/-- `"\n".join(output_parts) + "\n" if output_parts else ""` (line 180). -/
def joinOutput (parts : List String) : String :=
  if parts.isEmpty then "" else String.intercalate "\n" parts ++ "\n"

/-- `execute_code` (lines 151-180): install fresh capture buffers and
redirect both streams to them; `exec` the compiled body against the
shared namespace; restore the redirection targets on every exit path
(the `with` block semantics); on normal completion read the buffers and
the captured value and assemble the combined string; a raise inside
`exec` propagates out (as the `Except.error`), skipping the assembly,
with namespace mutations and the restored targets retained. -/
def execute_code (code_obj : List Stmt) (capture_result : Bool) (st : SysState) :
    SysState × Except PyError String :=
  let savedOut := st.stdoutTarget
  let savedErr := st.stderrTarget
  match execStmts code_obj (sandboxEntry st) with
  | (st₂, some e) =>
    ({ st₂ with stdoutTarget := savedOut, stderrTarget := savedErr }, Except.error e)
  | (st₂, Option.none) =>
    let out := st₂.bufOut
    let err := st₂.bufErr
    let result := capturedVal capture_result st₂.env
    ({ st₂ with stdoutTarget := savedOut, stderrTarget := savedErr },
      Except.ok (joinOutput (output_parts out err result)))

/-- One structured audit entry, reduced to the fields the lifecycle
invariants speak about: the `status` and `message` of a `log_entry`. -/
structure LogEvent where
  status : String
  message : String
deriving DecidableEq

/-- The observable effect of the audit logger: the local sink (the
kernel `logger.info` lines), the remote sink (`_hypha_server.log_event`
deliveries that succeeded), the local warnings recorded for failed
deliveries, and a counter of remote delivery attempts. -/
structure LogState where
  localLog : List LogEvent
  remoteLog : List LogEvent
  warnings : List String
  sent : Nat
deriving DecidableEq

def emptyLog : LogState := ⟨[], [], [], 0⟩

/-- `RequestLogger.log` (lines 82-105): always write the entry to the
local logger; if connected (`_hypha_server is not None`), attempt the
remote delivery — `sinkOk n` tells whether the n-th attempt succeeds;
a failure is caught and recorded only as a local warning. -/
def requestLog (connected : Bool) (sinkOk : Nat → Bool) (ev : LogEvent) (ls : LogState) :
    LogState :=
  let ls₁ := { ls with localLog := ls.localLog ++ [ev] }
  if connected then
    if sinkOk ls₁.sent then
      { ls₁ with remoteLog := ls₁.remoteLog ++ [ev], sent := ls₁.sent + 1 }
    else
      { ls₁ with warnings := ls₁.warnings ++ ["Failed to log event to Hypha"],
                 sent := ls₁.sent + 1 }
  else ls₁

def processingEvent : LogEvent := ⟨"processing", "Request received"⟩

def executingEvent : LogEvent := ⟨"executing", "Executing code..."⟩

def completedEvent : LogEvent := ⟨"completed", "Request completed successfully"⟩

def errorEvent (message : String) : LogEvent := ⟨"error", message⟩

/-- What one facade call returns and leaves behind: the string handed
back to the caller, the system state (shared namespace, streams), and
the audit state. -/
structure CallResult where
  output : String
  state : SysState
  log : LogState
deriving DecidableEq

/-- `run_python` (lines 187-226): log `processing`; parse and compile —
a `SyntaxError` is caught, logged as an `error` event, and returned as
an `"SyntaxError: ..."` string without touching the sandbox; otherwise
log `executing` and run `execute_code` — a raise is caught, logged as
an `error` event, and returned as `"Error: " + traceback.format_exc()`;
on success log `completed` and return the assembled output. -/
def run_python (connected : Bool) (sinkOk : Nat → Bool) (code : SubmittedCode)
    (st : SysState) (ls : LogState) : CallResult :=
  let ls₁ := requestLog connected sinkOk processingEvent ls
  match parse_and_compile_code code with
  | Except.error diag =>
    let ls₂ := requestLog connected sinkOk (errorEvent "Syntax Error") ls₁
    ⟨"SyntaxError: " ++ diag, st, ls₂⟩
  | Except.ok (code_obj, capture_result) =>
    let ls₂ := requestLog connected sinkOk executingEvent ls₁
    match execute_code code_obj capture_result st with
    | (st₁, Except.error pe) =>
      let ls₃ := requestLog connected sinkOk (errorEvent "Execution Error") ls₂
      ⟨"Error: " ++ traceback_format_exc pe, st₁, ls₃⟩
    | (st₁, Except.ok out) =>
      let ls₃ := requestLog connected sinkOk completedEvent ls₂
      ⟨out, st₁, ls₃⟩

/-- The fixed document returned by `get_docs` (lines 237-246). -/
def get_docs_text (dataset_description : String) : String :=
  "This server allows you to interact with a dataset by running\ncode in the `run_python` tool.\n\nThe dataset is mounted in /data.\n\nHere\x27s the description of the dataset:\n<START OF DATASET DESCRIPTION>\n"
    ++ dataset_description ++ "\n<END OF DATASET DESCRIPTION>\n"

/-- `get_docs` (lines 231-246): log a single `completed` event and
return the fixed document. -/
def get_docs (connected : Bool) (sinkOk : Nat → Bool) (dataset_description : String)
    (ls : LogState) : String × LogState :=
  let ls₁ := requestLog connected sinkOk completedEvent ls
  (get_docs_text dataset_description, ls₁)

/-- The audit events emitted under one call's request record: the local
log of a call started from an empty log state. -/
def runEvents (connected : Bool) (sinkOk : Nat → Bool) (code : SubmittedCode)
    (st : SysState) : List LogEvent :=
  (run_python connected sinkOk code st emptyLog).log.localLog

def statuses (evs : List LogEvent) : List String := evs.map LogEvent.status

def isTerminalStatus (s : String) : Bool := s == "completed" || s == "error"

/-- Every occurrence of status `a` comes strictly before every
occurrence of status `b` in the list. -/
abbrev precedes (a b : String) (l : List String) : Prop :=
  ∀ i j : Fin l.length, l.get i = a → l.get j = b → (i : Nat) < (j : Nat)

/-- A fresh system state over a given namespace: nothing yet on any
stream, `sys.stdout` / `sys.stderr` pointing at the host streams. -/
def initState (env : Env) : SysState :=
  ⟨env, "", "", "", "", StreamTarget.host, StreamTarget.host⟩

/-! ## Helper lemmas about the namespace -/

theorem envGet_cons (k₁ : String) (v₁ : Val) (rest : Env) (k : String) :
    envGet ((k₁, v₁) :: rest) k = if k₁ = k then some v₁ else envGet rest k := by
  by_cases h : k₁ = k
  · simp [envGet, List.find?, h]
  · simp only [envGet, List.find?]
    have : ((k₁, v₁).1 == k) = false := by simp [h]
    simp [this, h]

theorem envGet_envSet_self (env : Env) (k : String) (v : Val) :
    envGet (envSet env k v) k = some v := by
  induction env with
  | nil => simp [envSet, envGet, List.find?]
  | cons p rest ih =>
    obtain ⟨k₁, v₁⟩ := p
    by_cases h : k₁ = k
    · subst h; simp [envSet, envGet_cons]
    · simp [envSet, h, envGet_cons, ih]

theorem envGet_envSet_ne (env : Env) (k k' : String) (v : Val) (h : k' ≠ k) :
    envGet (envSet env k v) k' = envGet env k' := by
  induction env with
  | nil =>
    simp only [envSet, envGet_cons]
    rw [if_neg (fun hh => h hh.symm)]
  | cons p rest ih =>
    obtain ⟨k₁, v₁⟩ := p
    by_cases hk : k₁ = k
    · subst hk
      have e₁ : envSet ((k₁, v₁) :: rest) k₁ v = (k₁, v) :: rest := by simp [envSet]
      rw [e₁, envGet_cons, envGet_cons,
        if_neg (fun hh => h hh.symm), if_neg (fun hh => h hh.symm)]
    · simp only [envSet, if_neg hk, envGet_cons]
      by_cases hk' : k₁ = k'
      · simp [hk']
      · simp [hk', ih]

theorem envGet_envSet_isSome (env : Env) (k k' : String) (v : Val)
    (h : (envGet env k').isSome) : (envGet (envSet env k v) k').isSome := by
  by_cases hk : k' = k
  · subst hk; simp [envGet_envSet_self]
  · rw [envGet_envSet_ne env k k' v hk]; exact h

/-! ## Frame lemmas: execution never touches the host streams while the
redirection targets point at the buffers, and never changes the targets. -/

/-- Relation between the state before and after a hosted-language step:
the redirection targets are unchanged, and each host stream is
unchanged provided the corresponding target pointed at the buffer. -/
def hostPreserved (st st₁ : SysState) : Prop :=
  st₁.stdoutTarget = st.stdoutTarget ∧ st₁.stderrTarget = st.stderrTarget ∧
    (st.stdoutTarget = StreamTarget.buffer → st₁.hostOut = st.hostOut) ∧
    (st.stderrTarget = StreamTarget.buffer → st₁.hostErr = st.hostErr)

theorem hostPreserved_refl (st : SysState) : hostPreserved st st :=
  ⟨rfl, rfl, fun _ => rfl, fun _ => rfl⟩

theorem hostPreserved_trans {a b c : SysState}
    (h₁ : hostPreserved a b) (h₂ : hostPreserved b c) : hostPreserved a c := by
  obtain ⟨t₁, t₂, o₁, e₁⟩ := h₁
  obtain ⟨t₁', t₂', o₁', e₁'⟩ := h₂
  refine ⟨t₁'.trans t₁, t₂'.trans t₂, ?_, ?_⟩
  · intro h; exact (o₁' (t₁.trans h)).trans (o₁ h)
  · intro h; exact (e₁' (t₂.trans h)).trans (e₁ h)

theorem writeOut_frame (s : String) (st : SysState) :
    (writeOut s st).env = st.env ∧ hostPreserved st (writeOut s st) := by
  cases h : st.stdoutTarget <;> simp [writeOut, h, hostPreserved]

theorem writeErr_frame (s : String) (st : SysState) :
    (writeErr s st).env = st.env ∧ hostPreserved st (writeErr s st) := by
  cases h : st.stderrTarget <;> simp [writeErr, h, hostPreserved]

theorem evalExpr_frame (e : Expr) (st : SysState) :
    (evalExpr e st).1.env = st.env ∧ hostPreserved st (evalExpr e st).1 := by
  induction e generalizing st with
  | lit v => exact ⟨rfl, hostPreserved_refl _⟩
  | var x =>
    simp only [evalExpr]
    split <;> exact ⟨rfl, hostPreserved_refl _⟩
  | add a b iha ihb =>
    simp only [evalExpr]
    split
    case _ st₁ err heq =>
      have Ha := iha st; rw [heq] at Ha
      exact Ha
    case _ st₁ v₁ heq =>
      have Ha := iha st; rw [heq] at Ha
      split
      case _ st₂ err heq₂ =>
        have Hb := ihb st₁; rw [heq₂] at Hb
        exact ⟨Hb.1.trans Ha.1, hostPreserved_trans Ha.2 Hb.2⟩
      case _ st₂ v₂ heq₂ =>
        have Hb := ihb st₁; rw [heq₂] at Hb
        have comp : st₂.env = st.env ∧ hostPreserved st st₂ :=
          ⟨Hb.1.trans Ha.1, hostPreserved_trans Ha.2 Hb.2⟩
        cases v₁ <;> cases v₂ <;> exact comp
  | printE e ih =>
    simp only [evalExpr]
    split
    case _ st₁ err heq =>
      have He := ih st; rw [heq] at He
      exact He
    case _ st₁ v heq =>
      have He := ih st; rw [heq] at He
      have Hw := writeOut_frame (v.pyStr ++ "\n") st₁
      exact ⟨Hw.1.trans He.1, hostPreserved_trans He.2 Hw.2⟩
  | printErrE e ih =>
    simp only [evalExpr]
    split
    case _ st₁ err heq =>
      have He := ih st; rw [heq] at He
      exact He
    case _ st₁ v heq =>
      have He := ih st; rw [heq] at He
      have Hw := writeErr_frame (v.pyStr ++ "\n") st₁
      exact ⟨Hw.1.trans He.1, hostPreserved_trans He.2 Hw.2⟩

theorem execStmt_frame (s : Stmt) (st : SysState) :
    hostPreserved st (execStmt s st).1 ∧
      (∀ k, (envGet st.env k).isSome → (envGet (execStmt s st).1.env k).isSome) := by
  cases s with
  | exprStmt e =>
    simp only [execStmt]
    split
    case _ st₁ v heq =>
      have He := evalExpr_frame e st; rw [heq] at He
      exact ⟨He.2, fun k h => He.1.symm ▸ h⟩
    case _ st₁ err heq =>
      have He := evalExpr_frame e st; rw [heq] at He
      exact ⟨He.2, fun k h => He.1.symm ▸ h⟩
  | assign x e =>
    simp only [execStmt]
    split
    case _ st₁ v heq =>
      have He := evalExpr_frame e st; rw [heq] at He
      refine ⟨He.2, fun k h => ?_⟩
      exact envGet_envSet_isSome _ _ _ _ (He.1.symm ▸ h)
    case _ st₁ err heq =>
      have He := evalExpr_frame e st; rw [heq] at He
      exact ⟨He.2, fun k h => He.1.symm ▸ h⟩
  | raiseStmt k m => exact ⟨hostPreserved_refl _, fun _ h => h⟩
  | passStmt => exact ⟨hostPreserved_refl _, fun _ h => h⟩

theorem execStmts_frame (l : List Stmt) (st : SysState) :
    hostPreserved st (execStmts l st).1 ∧
      (∀ k, (envGet st.env k).isSome → (envGet (execStmts l st).1.env k).isSome) := by
  induction l generalizing st with
  | nil => exact ⟨hostPreserved_refl _, fun _ h => h⟩
  | cons s rest ih =>
    simp only [execStmts]
    split
    case _ st₁ heq =>
      have Hs := execStmt_frame s st; rw [heq] at Hs
      have Hr := ih st₁
      exact ⟨hostPreserved_trans Hs.1 Hr.1, fun k h => Hr.2 k (Hs.2 k h)⟩
    case _ st₁ err heq =>
      have Hs := execStmt_frame s st; rw [heq] at Hs
      exact Hs

/-- Decompose execution of an appended statement list. -/
theorem execStmts_append (l₁ l₂ : List Stmt) (st : SysState) :
    execStmts (l₁ ++ l₂) st =
      match execStmts l₁ st with
      | (st₁, Option.none) => execStmts l₂ st₁
      | (st₁, some e) => (st₁, some e) := by
  induction l₁ generalizing st with
  | nil => simp [execStmts]
  | cons s rest ih =>
    simp only [List.cons_append, execStmts]
    split
    case _ st₁ heq => exact ih st₁
    case _ st₁ err heq => rfl

/-! ## Shape lemmas for the executor and the facade -/

theorem execute_code_ok (code_obj : List Stmt) (cap : Bool) (st st₂ : SysState)
    (h : execStmts code_obj (sandboxEntry st) = (st₂, Option.none)) :
    execute_code code_obj cap st =
      ({ st₂ with stdoutTarget := st.stdoutTarget, stderrTarget := st.stderrTarget },
        Except.ok (joinOutput (output_parts st₂.bufOut st₂.bufErr (capturedVal cap st₂.env)))) := by
  simp [execute_code, h]

theorem execute_code_error (code_obj : List Stmt) (cap : Bool) (st st₂ : SysState) (e : PyError)
    (h : execStmts code_obj (sandboxEntry st) = (st₂, some e)) :
    execute_code code_obj cap st =
      ({ st₂ with stdoutTarget := st.stdoutTarget, stderrTarget := st.stderrTarget },
        Except.error e) := by
  simp [execute_code, h]

/-- Parsing a well-formed source always compiles to some body and flag. -/
theorem parse_parsed_ok (stmts : List Stmt) :
    ∃ body cap, parse_and_compile_code (SubmittedCode.parsed stmts) = Except.ok (body, cap) := by
  simp only [parse_and_compile_code]
  split
  · exact ⟨_, _, rfl⟩
  · exact ⟨_, _, rfl⟩

theorem run_python_parse_failure (connected : Bool) (sinkOk : Nat → Bool) (diag : String)
    (st : SysState) (ls : LogState) :
    run_python connected sinkOk (SubmittedCode.invalid diag) st ls =
      ⟨"SyntaxError: " ++ diag, st,
        requestLog connected sinkOk (errorEvent "Syntax Error")
          (requestLog connected sinkOk processingEvent ls)⟩ := rfl

theorem run_python_ok (connected : Bool) (sinkOk : Nat → Bool) (code : SubmittedCode)
    (st : SysState) (ls : LogState) (body : List Stmt) (cap : Bool) (st' : SysState) (out : String)
    (hp : parse_and_compile_code code = Except.ok (body, cap))
    (he : execute_code body cap st = (st', Except.ok out)) :
    run_python connected sinkOk code st ls =
      ⟨out, st',
        requestLog connected sinkOk completedEvent
          (requestLog connected sinkOk executingEvent
            (requestLog connected sinkOk processingEvent ls))⟩ := by
  simp [run_python, hp, he]

theorem run_python_execError (connected : Bool) (sinkOk : Nat → Bool) (code : SubmittedCode)
    (st : SysState) (ls : LogState) (body : List Stmt) (cap : Bool) (st' : SysState) (pe : PyError)
    (hp : parse_and_compile_code code = Except.ok (body, cap))
    (he : execute_code body cap st = (st', Except.error pe)) :
    run_python connected sinkOk code st ls =
      ⟨"Error: " ++ traceback_format_exc pe, st',
        requestLog connected sinkOk (errorEvent "Execution Error")
          (requestLog connected sinkOk executingEvent
            (requestLog connected sinkOk processingEvent ls))⟩ := by
  simp [run_python, hp, he]

theorem requestLog_localLog (connected : Bool) (sinkOk : Nat → Bool) (ev : LogEvent)
    (ls : LogState) :
    (requestLog connected sinkOk ev ls).localLog = ls.localLog ++ [ev] := by
  simp only [requestLog]
  split
  · split <;> rfl
  · rfl

/-- A successfully executed capturing body leaves `_ai_result` bound in
the namespace: the rewritten final statement is exactly that assignment. -/
theorem execStmts_last_assign (l : List Stmt) (k : String) (e : Expr) (st st₂ : SysState)
    (h : execStmts (l ++ [Stmt.assign k e]) st = (st₂, Option.none)) :
    ∃ v, envGet st₂.env k = some v := by
  rw [execStmts_append] at h
  split at h
  case _ st₁ heq =>
    simp only [execStmts, execStmt] at h
    cases hv : evalExpr e st₁ with
    | mk stE r =>
      rw [hv] at h
      cases r with
      | ok v =>
        simp only [execStmts] at h
        injection h with h₁ h₂
        exact ⟨v, by rw [← h₁]; exact envGet_envSet_self _ _ _⟩
      | error err =>
        simp only [execStmts] at h
        injection h with h₁ h₂
        exact absurd h₂ (by simp)
  case _ st₁ err heq =>
    exact absurd (congrArg Prod.snd h) (by simp)

/-! ## String helpers for section markers -/

theorem str_append_assoc (a b c : String) : a ++ b ++ c = a ++ (b ++ c) :=
  String.append_assoc a b c

theorem intercalate_go_last (p acc : String) (l : List String) :
    ∃ pre, String.intercalate.go acc "\n" (l ++ [p]) = pre ++ p := by
  induction l generalizing acc with
  | nil => exact ⟨acc ++ "\n", rfl⟩
  | cons a l ih => exact ih (acc ++ "\n" ++ a)

theorem intercalate_last (A : List String) (p : String) :
    ∃ pre, String.intercalate "\n" (A ++ [p]) = pre ++ p := by
  cases A with
  | nil => exact ⟨"", rfl⟩
  | cons a A' => exact intercalate_go_last p a A'

/-- Joining a parts list that ends with part `p` yields a string ending
with `p` followed by the trailing newline. -/
theorem joinOutput_last (A : List String) (p : String) :
    ∃ pre, joinOutput (A ++ [p]) = pre ++ (p ++ "\n") := by
  obtain ⟨pre, hpre⟩ := intercalate_last A p
  refine ⟨pre, ?_⟩
  have hne : (A ++ [p]).isEmpty = false := by
    cases A <;> rfl
  rw [joinOutput, hne]
  simp only [Bool.false_eq_true, if_false, hpre, str_append_assoc]

/-- No Output or Stderr section is a Result section: the markers differ. -/
theorem output_marker_ne_result (a b r : String)
    (ha : a = "Output:\n" ∨ a = "Stderr:\n") : a ++ b ≠ "Result: " ++ r := by
  intro h
  have hd := congrArg String.data h
  rw [String.data_append, String.data_append] at hd
  cases ha with
  | inl h1 => subst h1; simp at hd
  | inr h1 => subst h1; simp at hd

/-- The parts assembled for a call that captures no value (`result is
None`) contain no Result section. -/
theorem output_parts_none_no_result (out err : String) :
    ∀ q ∈ output_parts out err Val.none, ∀ r, q ≠ "Result: " ++ r := by
  intro q hq r
  simp only [output_parts, ne_eq, not_true_eq_false, if_false, List.append_nil,
    List.mem_append] at hq
  rcases hq with hq | hq
  · rcases em (out = "") with h | h
    · simp [h] at hq
    · simp only [h, if_true, List.mem_singleton, ne_eq, not_false_eq_true] at hq
      subst hq
      exact output_marker_ne_result _ _ r (Or.inl rfl)
  · rcases em (err = "") with h | h
    · simp [h] at hq
    · simp only [h, if_true, List.mem_singleton, ne_eq, not_false_eq_true] at hq
      subst hq
      exact output_marker_ne_result _ _ r (Or.inr rfl)

/-- When the captured value is not `None` the parts list ends with the
Result section. -/
theorem output_parts_some_result (out err : String) (v : Val) (hv : v ≠ Val.none) :
    output_parts out err v =
      ((if out ≠ "" then ["Output:\n" ++ out] else [])
        ++ (if err ≠ "" then ["Stderr:\n" ++ err] else [])) ++ ["Result: " ++ v.pyRepr] := by
  simp [output_parts, hv]

/-! ## Audit-trail utilities and path lemmas -/

/-- The status list ends in exactly one terminal event. -/
def endsInOneTerminal (l : List String) : Bool :=
  ((l.filter isTerminalStatus).length == 1) &&
    (match l.getLast? with
     | some s => isTerminalStatus s
     | Option.none => false)

/-- The lifecycle ordering invariant of one call's audit events:
non-empty, exactly one terminal status which comes last, and every
`processing` strictly before every `executing` strictly before every
terminal status. -/
abbrev auditOrdered (l : List String) : Prop :=
  l ≠ [] ∧ endsInOneTerminal l = true ∧
    precedes "processing" "executing" l ∧ precedes "processing" "completed" l ∧
    precedes "processing" "error" l ∧ precedes "executing" "completed" l ∧
    precedes "executing" "error" l

theorem parse_capture (stmts : List Stmt) (e : Expr)
    (h : stmts.getLast? = some (Stmt.exprStmt e)) :
    parse_and_compile_code (SubmittedCode.parsed stmts)
      = Except.ok (stmts.dropLast ++ [Stmt.assign "_ai_result" e], true) := by
  simp [parse_and_compile_code, h]

theorem parse_no_capture (stmts : List Stmt)
    (h : ∀ e, stmts.getLast? ≠ some (Stmt.exprStmt e)) :
    parse_and_compile_code (SubmittedCode.parsed stmts) = Except.ok (stmts, false) := by
  cases hl : stmts.getLast? with
  | none => simp [parse_and_compile_code, hl]
  | some s =>
    cases s with
    | exprStmt e => exact absurd hl (h e)
    | assign n e => simp [parse_and_compile_code, hl]
    | raiseStmt k m => simp [parse_and_compile_code, hl]
    | passStmt => simp [parse_and_compile_code, hl]

/-- The three possible audit trails of a `run_python` call. -/
theorem runEvents_statuses (connected : Bool) (sinkOk : Nat → Bool) (code : SubmittedCode)
    (st : SysState) :
    statuses (runEvents connected sinkOk code st) = ["processing", "error"] ∨
    statuses (runEvents connected sinkOk code st) = ["processing", "executing", "error"] ∨
    statuses (runEvents connected sinkOk code st) = ["processing", "executing", "completed"] := by
  cases code with
  | invalid diag =>
    left
    rw [runEvents, run_python_parse_failure]
    simp [statuses, requestLog_localLog, emptyLog, processingEvent, errorEvent]
  | parsed stmts =>
    obtain ⟨body, cap, hp⟩ := parse_parsed_ok stmts
    cases hex : execStmts body (sandboxEntry st) with
    | mk st₂ r =>
      cases r with
      | none =>
        right; right
        rw [runEvents, run_python_ok connected sinkOk _ st emptyLog body cap _ _ hp
          (execute_code_ok body cap st st₂ hex)]
        simp [statuses, requestLog_localLog, emptyLog, processingEvent, executingEvent,
          completedEvent]
      | some pe =>
        right; left
        rw [runEvents, run_python_execError connected sinkOk _ st emptyLog body cap _ pe hp
          (execute_code_error body cap st st₂ pe hex)]
        simp [statuses, requestLog_localLog, emptyLog, processingEvent, executingEvent,
          errorEvent]

/-- No call of `run_python` ever removes a binding from the shared
namespace: whatever was present before the call is still present after
it (possibly rebound to a new value). -/
theorem run_python_keeps (connected : Bool) (sinkOk : Nat → Bool) (code : SubmittedCode)
    (st : SysState) (ls : LogState) (k : String)
    (h : (envGet st.env k).isSome) :
    (envGet (run_python connected sinkOk code st ls).state.env k).isSome := by
  cases code with
  | invalid diag =>
    rw [run_python_parse_failure]
    exact h
  | parsed stmts =>
    obtain ⟨body, cap, hp⟩ := parse_parsed_ok stmts
    cases hex : execStmts body (sandboxEntry st) with
    | mk st₂ r =>
      have Hf := (execStmts_frame body (sandboxEntry st)).2 k (by simpa [sandboxEntry] using h)
      rw [hex] at Hf
      cases r with
      | none =>
        rw [run_python_ok connected sinkOk _ st ls body cap _ _ hp
          (execute_code_ok body cap st st₂ hex)]
        exact Hf
      | some pe =>
        rw [run_python_execError connected sinkOk _ st ls body cap _ pe hp
          (execute_code_error body cap st st₂ pe hex)]
        exact Hf

/-! ## Claim theorems -/

/-- Claim C4 (confirmed): `parse_and_compile_code` replaces the last
top-level statement with an assignment of that identical expression to
the reserved binding `_ai_result` if and only if that last statement is
a bare expression statement, leaves all earlier statements untouched
(the rewritten body is `stmts.dropLast` followed by the assignment),
sets the capture flag exactly in that case, and the rewritten program
evaluates the expression exactly once at its original position: its
raise behaviour, stream writes and namespace bindings other than the
reserved one are identical to the original program's. -/
theorem claim4_rewrite_iff :
    (∀ (stmts : List Stmt) (e : Expr), stmts.getLast? = some (Stmt.exprStmt e) →
      parse_and_compile_code (SubmittedCode.parsed stmts)
        = Except.ok (stmts.dropLast ++ [Stmt.assign "_ai_result" e], true)) ∧
    (∀ stmts : List Stmt, (∀ e, stmts.getLast? ≠ some (Stmt.exprStmt e)) →
      parse_and_compile_code (SubmittedCode.parsed stmts) = Except.ok (stmts, false)) ∧
    (∀ (pre : List Stmt) (e : Expr) (k : String) (st : SysState),
      (execStmts (pre ++ [Stmt.assign k e]) st).2
        = (execStmts (pre ++ [Stmt.exprStmt e]) st).2 ∧
      (execStmts (pre ++ [Stmt.assign k e]) st).1.bufOut
        = (execStmts (pre ++ [Stmt.exprStmt e]) st).1.bufOut ∧
      (execStmts (pre ++ [Stmt.assign k e]) st).1.bufErr
        = (execStmts (pre ++ [Stmt.exprStmt e]) st).1.bufErr ∧
      (execStmts (pre ++ [Stmt.assign k e]) st).1.hostOut
        = (execStmts (pre ++ [Stmt.exprStmt e]) st).1.hostOut ∧
      (execStmts (pre ++ [Stmt.assign k e]) st).1.hostErr
        = (execStmts (pre ++ [Stmt.exprStmt e]) st).1.hostErr ∧
      (∀ q, q ≠ k → envGet (execStmts (pre ++ [Stmt.assign k e]) st).1.env q
        = envGet (execStmts (pre ++ [Stmt.exprStmt e]) st).1.env q)) := by
  refine ⟨parse_capture, parse_no_capture, ?_⟩
  intro pre e k st
  rw [execStmts_append, execStmts_append]
  cases hps : execStmts pre st with
  | mk st₁ r =>
    cases r with
    | some err =>
      exact ⟨rfl, rfl, rfl, rfl, rfl, fun q _ => rfl⟩
    | none =>
      simp only [execStmts, execStmt]
      cases hv : evalExpr e st₁ with
      | mk stE rv =>
        cases rv with
        | ok v =>
          exact ⟨rfl, rfl, rfl, rfl, rfl, fun q hq => envGet_envSet_ne _ _ _ _ hq⟩
        | error err =>
          exact ⟨rfl, rfl, rfl, rfl, rfl, fun q _ => rfl⟩

/-- Witness for C4: the rewrite at the concrete program `pass; 7`, the
no-rewrite case at `pass`, and agreement of the two execution forms off
the reserved binding. -/
theorem claim4_rewrite_iff_witness :
    ([Stmt.passStmt, Stmt.exprStmt (Expr.lit (Val.int 7))].getLast?
      = some (Stmt.exprStmt (Expr.lit (Val.int 7)))) ∧
    (parse_and_compile_code
        (SubmittedCode.parsed [Stmt.passStmt, Stmt.exprStmt (Expr.lit (Val.int 7))])
      = Except.ok ([Stmt.passStmt, Stmt.assign "_ai_result" (Expr.lit (Val.int 7))], true)) ∧
    (parse_and_compile_code (SubmittedCode.parsed [Stmt.passStmt])
      = Except.ok ([Stmt.passStmt], false)) ∧
    (envGet (execStmts ([] ++ [Stmt.assign "_ai_result" (Expr.lit (Val.int 7))])
        (initState [])).1.env "x"
      = envGet (execStmts ([] ++ [Stmt.exprStmt (Expr.lit (Val.int 7))])
        (initState [])).1.env "x") :=
  ⟨by decide,
   claim4_rewrite_iff.1 [Stmt.passStmt, Stmt.exprStmt (Expr.lit (Val.int 7))]
     (Expr.lit (Val.int 7)) (by decide),
   claim4_rewrite_iff.2.1 [Stmt.passStmt] (by intro e h; simp at h),
   (claim4_rewrite_iff.2.2 [] (Expr.lit (Val.int 7)) "_ai_result"
     (initState [])).2.2.2.2.2 "x" (by decide)⟩

/-- Claim C7 (confirmed): for a syntactically invalid source,
`run_python` returns the string `"SyntaxError: "` followed by the
parser's diagnostic (so it begins with the syntax-error marker), emits
a `processing` then a terminal `error` audit event, never raises, and
leaves the system state — in particular the shared namespace — exactly
as it was: the sandbox is not invoked. -/
theorem claim7_syntax_path (connected : Bool) (sinkOk : Nat → Bool) (diag : String)
    (st : SysState) :
    (run_python connected sinkOk (SubmittedCode.invalid diag) st emptyLog).output
      = "SyntaxError: " ++ diag ∧
    (∃ rest, (run_python connected sinkOk (SubmittedCode.invalid diag) st emptyLog).output
      = "SyntaxError: " ++ rest) ∧
    (run_python connected sinkOk (SubmittedCode.invalid diag) st emptyLog).state = st ∧
    statuses (runEvents connected sinkOk (SubmittedCode.invalid diag) st)
      = ["processing", "error"] := by
  refine ⟨rfl, ⟨diag, rfl⟩, rfl, ?_⟩
  rw [runEvents, run_python_parse_failure]
  simp [statuses, requestLog_localLog, emptyLog, processingEvent, errorEvent]

/-- Witness for C7 at the concrete diagnostic string `"invalid syntax"`. -/
theorem claim7_syntax_path_witness :
    (run_python true (fun _ => true) (SubmittedCode.invalid "invalid syntax")
      (initState []) emptyLog).output = "SyntaxError: " ++ "invalid syntax" :=
  (claim7_syntax_path true (fun _ => true) "invalid syntax" (initState [])).1

/-- Claim C6 (confirmed): for every call to `run_python` or `get_docs`,
the audit events emitted under that call's request record form a
non-empty sequence, every `processing` strictly precedes every
`executing` which strictly precedes every terminal status, and the
sequence ends in exactly one terminal status from completed/error. -/
theorem claim6_audit_lifecycle (connected : Bool) (sinkOk : Nat → Bool) (code : SubmittedCode)
    (st : SysState) (descr : String) :
    auditOrdered (statuses (runEvents connected sinkOk code st)) ∧
    auditOrdered (statuses (get_docs connected sinkOk descr emptyLog).2.localLog) := by
  constructor
  · rcases runEvents_statuses connected sinkOk code st with h | h | h <;> rw [h] <;> decide
  · have hdocs : (get_docs connected sinkOk descr emptyLog).2.localLog = [completedEvent] := by
      simp [get_docs, requestLog_localLog, emptyLog]
    rw [hdocs]
    decide

/-- Witness for C6 at a concrete successful call and a concrete
`get_docs` call. -/
theorem claim6_audit_lifecycle_witness :
    auditOrdered (statuses (runEvents true (fun _ => true)
      (SubmittedCode.parsed [Stmt.passStmt]) (initState []))) ∧
    auditOrdered (statuses (get_docs true (fun _ => true) "docs" emptyLog).2.localLog) :=
  claim6_audit_lifecycle true (fun _ => true) (SubmittedCode.parsed [Stmt.passStmt])
    (initState []) "docs"

/-- Claim C3 (confirmed): `run_python` is a total function of its
inputs — no failure originating in the submitted script escapes it.
Every call emits exactly one terminal audit status, and each failure
mode (parse failure, runtime fault) resolves to the corresponding
error string plus a trail ending in an `error` event. -/
theorem claim3_no_raise (connected : Bool) (sinkOk : Nat → Bool) (code : SubmittedCode)
    (st : SysState) :
    ((statuses (runEvents connected sinkOk code st)).filter isTerminalStatus).length = 1 ∧
    (∀ diag, code = SubmittedCode.invalid diag →
      (run_python connected sinkOk code st emptyLog).output = "SyntaxError: " ++ diag ∧
      statuses (runEvents connected sinkOk code st) = ["processing", "error"]) ∧
    (∀ (body : List Stmt) (cap : Bool) (st₂ : SysState) (pe : PyError),
      parse_and_compile_code code = Except.ok (body, cap) →
      execStmts body (sandboxEntry st) = (st₂, some pe) →
      (run_python connected sinkOk code st emptyLog).output
        = "Error: " ++ traceback_format_exc pe ∧
      statuses (runEvents connected sinkOk code st)
        = ["processing", "executing", "error"]) := by
  refine ⟨?_, ?_, ?_⟩
  · rcases runEvents_statuses connected sinkOk code st with h | h | h <;> rw [h] <;> decide
  · rintro diag rfl
    refine ⟨rfl, ?_⟩
    rw [runEvents, run_python_parse_failure]
    simp [statuses, requestLog_localLog, emptyLog, processingEvent, errorEvent]
  · intro body cap st₂ pe hp hex
    have hrun := run_python_execError connected sinkOk code st emptyLog body cap _ pe hp
      (execute_code_error body cap st st₂ pe hex)
    refine ⟨by rw [hrun], ?_⟩
    rw [runEvents, hrun]
    simp [statuses, requestLog_localLog, emptyLog, processingEvent, executingEvent, errorEvent]

/-- Witness for C3: both failure modes at concrete inputs — a syntax
error and a raised `ValueError`. -/
theorem claim3_no_raise_witness :
    ((run_python true (fun _ => true) (SubmittedCode.invalid "bad")
        (initState []) emptyLog).output = "SyntaxError: " ++ "bad" ∧
      statuses (runEvents true (fun _ => true) (SubmittedCode.invalid "bad") (initState []))
        = ["processing", "error"]) ∧
    ((run_python true (fun _ => true)
        (SubmittedCode.parsed [Stmt.raiseStmt "ValueError" "boom"])
        (initState []) emptyLog).output
        = "Error: " ++ traceback_format_exc ⟨"ValueError", "boom"⟩ ∧
      statuses (runEvents true (fun _ => true)
        (SubmittedCode.parsed [Stmt.raiseStmt "ValueError" "boom"]) (initState []))
        = ["processing", "executing", "error"]) :=
  ⟨(claim3_no_raise true (fun _ => true) (SubmittedCode.invalid "bad") (initState [])).2.1
      "bad" rfl,
   (claim3_no_raise true (fun _ => true)
      (SubmittedCode.parsed [Stmt.raiseStmt "ValueError" "boom"]) (initState [])).2.2
      [Stmt.raiseStmt "ValueError" "boom"] false
      (sandboxEntry (initState [])) ⟨"ValueError", "boom"⟩ rfl (by decide)⟩

/-- Claim C9 (confirmed): the audit logger always writes the event to
the local log; when the remote sink delivery fails the failure is
recorded only as a local warning, the remote log is untouched, and —
at call level — neither connectivity nor sink behaviour affects the
returned string, the resulting system state, or the local audit trail
of `run_python`. -/
theorem claim9_sink_isolated :
    (∀ (connected : Bool) (sinkOk : Nat → Bool) (ev : LogEvent) (ls : LogState),
      (requestLog connected sinkOk ev ls).localLog = ls.localLog ++ [ev]) ∧
    (∀ (sinkOk : Nat → Bool) (ev : LogEvent) (ls : LogState), sinkOk ls.sent = false →
      (requestLog true sinkOk ev ls).warnings
        = ls.warnings ++ ["Failed to log event to Hypha"] ∧
      (requestLog true sinkOk ev ls).remoteLog = ls.remoteLog) ∧
    (∀ (c₁ c₂ : Bool) (s₁ s₂ : Nat → Bool) (code : SubmittedCode) (st : SysState)
        (ls : LogState),
      (run_python c₁ s₁ code st ls).output = (run_python c₂ s₂ code st ls).output ∧
      (run_python c₁ s₁ code st ls).state = (run_python c₂ s₂ code st ls).state ∧
      (run_python c₁ s₁ code st ls).log.localLog
        = (run_python c₂ s₂ code st ls).log.localLog) := by
  refine ⟨requestLog_localLog, ?_, ?_⟩
  · intro sinkOk ev ls h
    constructor <;> simp [requestLog, h]
  · intro c₁ c₂ s₁ s₂ code st ls
    cases code with
    | invalid diag =>
      rw [run_python_parse_failure, run_python_parse_failure]
      exact ⟨rfl, rfl, by simp [requestLog_localLog]⟩
    | parsed stmts =>
      obtain ⟨body, cap, hp⟩ := parse_parsed_ok stmts
      cases hex : execStmts body (sandboxEntry st) with
      | mk st₂ r =>
        cases r with
        | none =>
          rw [run_python_ok c₁ s₁ _ st ls body cap _ _ hp (execute_code_ok body cap st st₂ hex),
            run_python_ok c₂ s₂ _ st ls body cap _ _ hp (execute_code_ok body cap st st₂ hex)]
          exact ⟨rfl, rfl, by simp [requestLog_localLog]⟩
        | some pe =>
          rw [run_python_execError c₁ s₁ _ st ls body cap _ pe hp
              (execute_code_error body cap st st₂ pe hex),
            run_python_execError c₂ s₂ _ st ls body cap _ pe hp
              (execute_code_error body cap st st₂ pe hex)]
          exact ⟨rfl, rfl, by simp [requestLog_localLog]⟩

/-- Witness for C9: a sink that always fails records a warning for the
event and the returned string matches the one under a working sink. -/
theorem claim9_sink_isolated_witness :
    (((fun _ => false) : Nat → Bool) emptyLog.sent = false) ∧
    ((requestLog true (fun _ => false) processingEvent emptyLog).warnings
      = emptyLog.warnings ++ ["Failed to log event to Hypha"] ∧
     (requestLog true (fun _ => false) processingEvent emptyLog).remoteLog
      = emptyLog.remoteLog) ∧
    (run_python true (fun _ => false) (SubmittedCode.parsed [Stmt.passStmt])
        (initState []) emptyLog).output
      = (run_python false (fun _ => true) (SubmittedCode.parsed [Stmt.passStmt])
        (initState []) emptyLog).output :=
  ⟨rfl,
   claim9_sink_isolated.2.1 (fun _ => false) processingEvent emptyLog rfl,
   (claim9_sink_isolated.2.2 true false (fun _ => false) (fun _ => true)
      (SubmittedCode.parsed [Stmt.passStmt]) (initState []) emptyLog).1⟩

/-- Reading a bound variable as the trailing bare expression of a call
returns its value as the Result section (empty string when the value is
`None`, matching the REPL suppression of `None`). -/
theorem run_read_var (connected : Bool) (sinkOk : Nat → Bool) (name : String) (v : Val)
    (st : SysState) (ls : LogState) (h : envGet st.env name = some v) :
    (run_python connected sinkOk (SubmittedCode.parsed [Stmt.exprStmt (Expr.var name)])
        st ls).output
      = (if v = Val.none then "" else "Result: " ++ v.pyRepr ++ "\n") := by
  have hp := parse_capture [Stmt.exprStmt (Expr.var name)] (Expr.var name) rfl
  have hev : evalExpr (Expr.var name) (sandboxEntry st) = (sandboxEntry st, Except.ok v) := by
    have h' : envGet (sandboxEntry st).env name = some v := h
    simp only [evalExpr, h']
  have hex : execStmts [Stmt.assign "_ai_result" (Expr.var name)] (sandboxEntry st)
      = ({ sandboxEntry st with env := envSet (sandboxEntry st).env "_ai_result" v },
          Option.none) := by
    simp only [execStmts, execStmt, hev]
  rw [run_python_ok connected sinkOk _ st ls _ _ _ _ hp (execute_code_ok _ true st _ hex)]
  have hcap : capturedVal true
      ({ sandboxEntry st with
          env := envSet (sandboxEntry st).env "_ai_result" v } : SysState).env = v := by
    simp [capturedVal, envGet_envSet_self]
  simp only [hcap]
  by_cases hv : v = Val.none
  · simp [hv, output_parts, joinOutput, sandboxEntry]
  · simp only [output_parts, sandboxEntry]
    simp [hv, joinOutput]
    rfl

/-- Claim C8 (confirmed): the namespace is one persistent store
threaded through the calls: a binding written by call N is readable by
call N+1 (a subsequent call reading it as its trailing expression
returns its value), and no call of `run_python` ever removes an
existing binding from the shared namespace. -/
theorem claim8_persistence (connected c₂ : Bool) (sinkOk s₂ : Nat → Bool) (name : String)
    (v : Val) (st : SysState) (ls ls₂ : LogState) (code : SubmittedCode) (k : String) :
    envGet (run_python connected sinkOk
        (SubmittedCode.parsed [Stmt.assign name (Expr.lit v)]) st ls).state.env name
      = some v ∧
    (run_python c₂ s₂ (SubmittedCode.parsed [Stmt.exprStmt (Expr.var name)])
        (run_python connected sinkOk (SubmittedCode.parsed [Stmt.assign name (Expr.lit v)])
          st ls).state ls₂).output
      = (if v = Val.none then "" else "Result: " ++ v.pyRepr ++ "\n") ∧
    ((envGet st.env k).isSome →
      (envGet (run_python connected sinkOk code st ls).state.env k).isSome) := by
  have hp : parse_and_compile_code (SubmittedCode.parsed [Stmt.assign name (Expr.lit v)])
      = Except.ok ([Stmt.assign name (Expr.lit v)], false) :=
    parse_no_capture _ (by intro e h; simp at h)
  have hex : execStmts [Stmt.assign name (Expr.lit v)] (sandboxEntry st)
      = ({ sandboxEntry st with env := envSet (sandboxEntry st).env name v },
          Option.none) := rfl
  have hrun := run_python_ok connected sinkOk _ st ls _ _ _ _ hp
    (execute_code_ok _ false st _ hex)
  have hbind : envGet (run_python connected sinkOk
      (SubmittedCode.parsed [Stmt.assign name (Expr.lit v)]) st ls).state.env name
      = some v := by
    rw [hrun]
    exact envGet_envSet_self _ _ _
  exact ⟨hbind, run_read_var c₂ s₂ name v _ ls₂ hbind,
    fun h => run_python_keeps connected sinkOk code st ls k h⟩

/-- Witness for C8: binding `x := 5` in one call, reading it in the
next, and preservation of an existing binding across a call. -/
theorem claim8_persistence_witness :
    (envGet (run_python true (fun _ => true)
        (SubmittedCode.parsed [Stmt.assign "x" (Expr.lit (Val.int 5))])
        (initState [("a", Val.int 1)]) emptyLog).state.env "x" = some (Val.int 5)) ∧
    ((run_python true (fun _ => true) (SubmittedCode.parsed [Stmt.exprStmt (Expr.var "x")])
        (run_python true (fun _ => true)
          (SubmittedCode.parsed [Stmt.assign "x" (Expr.lit (Val.int 5))])
          (initState [("a", Val.int 1)]) emptyLog).state emptyLog).output
      = (if (Val.int 5) = Val.none then "" else "Result: " ++ (Val.int 5).pyRepr ++ "\n")) ∧
    ((envGet (initState [("a", Val.int 1)]).env "a").isSome = true) ∧
    ((envGet (run_python true (fun _ => true) (SubmittedCode.parsed [Stmt.passStmt])
        (initState [("a", Val.int 1)]) emptyLog).state.env "a").isSome = true) :=
  ⟨(claim8_persistence true true (fun _ => true) (fun _ => true) "x" (Val.int 5)
      (initState [("a", Val.int 1)]) emptyLog emptyLog
      (SubmittedCode.parsed [Stmt.passStmt]) "a").1,
   (claim8_persistence true true (fun _ => true) (fun _ => true) "x" (Val.int 5)
      (initState [("a", Val.int 1)]) emptyLog emptyLog
      (SubmittedCode.parsed [Stmt.passStmt]) "a").2.1,
   by decide,
   (claim8_persistence true true (fun _ => true) (fun _ => true) "x" (Val.int 5)
      (initState [("a", Val.int 1)]) emptyLog emptyLog
      (SubmittedCode.parsed [Stmt.passStmt]) "a").2.2 (by decide)⟩

/-- Claim C10 (confirmed): after a successful capturing call the
reserved binding `_ai_result` is defined in the shared namespace; no
subsequent call removes it; and a later capturing call reading it
returns whatever value it holds then — concretely, running `1 + 1`
and then `_ai_result` returns `Result: 2` again. -/
theorem claim10_ai_result (connected : Bool) (sinkOk : Nat → Bool) (stmts : List Stmt)
    (e : Expr) (st st₂ : SysState) :
    (stmts.getLast? = some (Stmt.exprStmt e) →
      execStmts (stmts.dropLast ++ [Stmt.assign "_ai_result" e]) (sandboxEntry st)
        = (st₂, Option.none) →
      ∃ v, envGet (run_python connected sinkOk (SubmittedCode.parsed stmts)
        st emptyLog).state.env "_ai_result" = some v) ∧
    (∀ (code₂ : SubmittedCode) (st₃ : SysState) (ls : LogState),
      (envGet st₃.env "_ai_result").isSome →
      (envGet (run_python connected sinkOk code₂ st₃ ls).state.env "_ai_result").isSome) ∧
    ((run_python true (fun _ => true)
        (SubmittedCode.parsed [Stmt.exprStmt (Expr.var "_ai_result")])
        (run_python true (fun _ => true)
          (SubmittedCode.parsed
            [Stmt.exprStmt (Expr.add (Expr.lit (Val.int 1)) (Expr.lit (Val.int 1)))])
          (initState []) emptyLog).state emptyLog).output = "Result: 2\n") := by
  refine ⟨?_, ?_, by decide⟩
  · intro hlast hex
    have hp := parse_capture stmts e hlast
    rw [run_python_ok connected sinkOk _ st emptyLog _ _ _ _ hp
      (execute_code_ok _ true st st₂ hex)]
    obtain ⟨v, hv⟩ := execStmts_last_assign _ _ _ _ _ hex
    exact ⟨v, hv⟩
  · intro code₂ st₃ ls h
    exact run_python_keeps connected sinkOk code₂ st₃ ls "_ai_result" h

/-- Witness for C10: the capturing call `2` leaves `_ai_result` bound,
and a pass-through call preserves the binding. -/
theorem claim10_ai_result_witness :
    ([Stmt.exprStmt (Expr.lit (Val.int 2))].getLast?
      = some (Stmt.exprStmt (Expr.lit (Val.int 2)))) ∧
    (execStmts ([Stmt.exprStmt (Expr.lit (Val.int 2))].dropLast
        ++ [Stmt.assign "_ai_result" (Expr.lit (Val.int 2))]) (sandboxEntry (initState []))
      = (⟨[("_ai_result", Val.int 2)], "", "", "", "",
          StreamTarget.buffer, StreamTarget.buffer⟩, Option.none)) ∧
    (∃ v, envGet (run_python true (fun _ => true)
        (SubmittedCode.parsed [Stmt.exprStmt (Expr.lit (Val.int 2))])
        (initState []) emptyLog).state.env "_ai_result" = some v) ∧
    ((envGet (initState [("_ai_result", Val.int 2)]).env "_ai_result").isSome = true) ∧
    ((envGet (run_python true (fun _ => true) (SubmittedCode.parsed [Stmt.passStmt])
        (initState [("_ai_result", Val.int 2)]) emptyLog).state.env "_ai_result").isSome
      = true) :=
  ⟨by decide, by decide,
   (claim10_ai_result true (fun _ => true) [Stmt.exprStmt (Expr.lit (Val.int 2))]
      (Expr.lit (Val.int 2)) (initState [])
      ⟨[("_ai_result", Val.int 2)], "", "", "", "",
        StreamTarget.buffer, StreamTarget.buffer⟩).1 (by decide) (by decide),
   by decide,
   (claim10_ai_result true (fun _ => true) [Stmt.exprStmt (Expr.lit (Val.int 2))]
      (Expr.lit (Val.int 2)) (initState [])
      ⟨[("_ai_result", Val.int 2)], "", "", "", "",
        StreamTarget.buffer, StreamTarget.buffer⟩).2.1
      (SubmittedCode.parsed [Stmt.passStmt]) (initState [("_ai_result", Val.int 2)])
      emptyLog (by decide)⟩

/-- Claim C5 (confirmed): during a call of `execute_code` everything
the script writes goes only into the capture buffers — the host
process streams are unchanged on every exit path, including a raised
fault — and the redirection targets are restored to their pre-call
values on every exit path; on normal completion the captured stdout
and stderr appear verbatim as the Output and Stderr sections of the
assembled string. -/
theorem claim5_redirection (code_obj : List Stmt) (cap : Bool) (st : SysState) :
    (execute_code code_obj cap st).1.hostOut = st.hostOut ∧
    (execute_code code_obj cap st).1.hostErr = st.hostErr ∧
    (execute_code code_obj cap st).1.stdoutTarget = st.stdoutTarget ∧
    (execute_code code_obj cap st).1.stderrTarget = st.stderrTarget ∧
    (∀ (st' : SysState) (out : String),
      execute_code code_obj cap st = (st', Except.ok out) →
      out = joinOutput (output_parts st'.bufOut st'.bufErr (capturedVal cap st'.env)) ∧
      (st'.bufOut ≠ "" → ("Output:\n" ++ st'.bufOut)
        ∈ output_parts st'.bufOut st'.bufErr (capturedVal cap st'.env)) ∧
      (st'.bufErr ≠ "" → ("Stderr:\n" ++ st'.bufErr)
        ∈ output_parts st'.bufOut st'.bufErr (capturedVal cap st'.env))) := by
  cases hex : execStmts code_obj (sandboxEntry st) with
  | mk st₂ r =>
    have Hf := (execStmts_frame code_obj (sandboxEntry st)).1
    rw [hex] at Hf
    obtain ⟨ht1, ht2, ho, he⟩ := Hf
    have hOut : st₂.hostOut = st.hostOut := ho rfl
    have hErr : st₂.hostErr = st.hostErr := he rfl
    cases r with
    | some pe =>
      rw [execute_code_error code_obj cap st st₂ pe hex]
      exact ⟨hOut, hErr, rfl, rfl,
        fun st' out h => absurd (congrArg Prod.snd h) (by simp)⟩
    | none =>
      rw [execute_code_ok code_obj cap st st₂ hex]
      refine ⟨hOut, hErr, rfl, rfl, ?_⟩
      intro st' out h
      injection h with h₁ h₂
      injection h₂ with h₂
      subst h₁
      refine ⟨h₂.symm, ?_, ?_⟩
      · intro hne
        simp only at hne
        simp [output_parts, hne]
      · intro hne
        simp only at hne
        simp [output_parts, hne]

/-- Witness for C5: a script printing to both streams from a state
whose streams already hold text and point at the host. -/
theorem claim5_redirection_witness :
    ((execute_code [Stmt.exprStmt (Expr.printE (Expr.lit (Val.str "hi"))),
        Stmt.exprStmt (Expr.printErrE (Expr.lit (Val.str "oops")))] false
        ⟨[], "", "", "prior-out", "prior-err", StreamTarget.host, StreamTarget.host⟩).1.hostOut
      = "prior-out") ∧
    (execute_code [Stmt.exprStmt (Expr.printE (Expr.lit (Val.str "hi"))),
        Stmt.exprStmt (Expr.printErrE (Expr.lit (Val.str "oops")))] false
        ⟨[], "", "", "prior-out", "prior-err", StreamTarget.host, StreamTarget.host⟩
      = (⟨[], "hi\n", "oops\n", "prior-out", "prior-err",
          StreamTarget.host, StreamTarget.host⟩,
        Except.ok "Output:\nhi\n\nStderr:\noops\n\n")) ∧
    ("Output:\n" ++ "hi\n") ∈ output_parts "hi\n" "oops\n" (capturedVal false []) ∧
    ("Stderr:\n" ++ "oops\n") ∈ output_parts "hi\n" "oops\n" (capturedVal false []) :=
  ⟨(claim5_redirection [Stmt.exprStmt (Expr.printE (Expr.lit (Val.str "hi"))),
      Stmt.exprStmt (Expr.printErrE (Expr.lit (Val.str "oops")))] false
      ⟨[], "", "", "prior-out", "prior-err", StreamTarget.host, StreamTarget.host⟩).1,
   rfl,
   ((claim5_redirection [Stmt.exprStmt (Expr.printE (Expr.lit (Val.str "hi"))),
      Stmt.exprStmt (Expr.printErrE (Expr.lit (Val.str "oops")))] false
      ⟨[], "", "", "prior-out", "prior-err", StreamTarget.host, StreamTarget.host⟩).2.2.2.2
      ⟨[], "hi\n", "oops\n", "prior-out", "prior-err",
        StreamTarget.host, StreamTarget.host⟩
      "Output:\nhi\n\nStderr:\noops\n\n" rfl).2.1 (by decide),
   ((claim5_redirection [Stmt.exprStmt (Expr.printE (Expr.lit (Val.str "hi"))),
      Stmt.exprStmt (Expr.printErrE (Expr.lit (Val.str "oops")))] false
      ⟨[], "", "", "prior-out", "prior-err", StreamTarget.host, StreamTarget.host⟩).2.2.2.2
      ⟨[], "hi\n", "oops\n", "prior-out", "prior-err",
        StreamTarget.host, StreamTarget.host⟩
      "Output:\nhi\n\nStderr:\noops\n\n" rfl).2.2 (by decide)⟩

set_option maxRecDepth 8192 in
/-- Counterexample to C2 as stated: the script `print("hi")` followed
by `raise ValueError("boom")` captures `"hi\n"` on the sandboxed stdout
before the fault, yet the string returned to the caller is only the
formatted diagnostic — the captured output does not appear in it. -/
theorem claim2_counterexample :
    (run_python true (fun _ => true)
        (SubmittedCode.parsed [Stmt.exprStmt (Expr.printE (Expr.lit (Val.str "hi"))),
          Stmt.raiseStmt "ValueError" "boom"])
        (initState []) emptyLog).state.bufOut = "hi\n" ∧
    (run_python true (fun _ => true)
        (SubmittedCode.parsed [Stmt.exprStmt (Expr.printE (Expr.lit (Val.str "hi"))),
          Stmt.raiseStmt "ValueError" "boom"])
        (initState []) emptyLog).output
      = "Error: Traceback (most recent call last):\n  File \x22<agent-code>\x22, line 1, in <module>\nValueError: boom\n" ∧
    ¬ ("hi".data <:+: (run_python true (fun _ => true)
        (SubmittedCode.parsed [Stmt.exprStmt (Expr.printE (Expr.lit (Val.str "hi"))),
          Stmt.raiseStmt "ValueError" "boom"])
        (initState []) emptyLog).output.data) :=
  ⟨by decide, by decide, by decide⟩

/-- Claim C2 (amended): a runtime fault raised while executing the
compiled unit is caught, not propagated — the call returns normally
with the namespace mutations made before the fault retained — and the
returned string is exactly `"Error: "` followed by the formatted
diagnostic (which carries the fault kind and message in its trace
text); the stdout/stderr captured before the fault is discarded and is
not part of the returned string. -/
theorem claim2_fault_handling (connected : Bool) (sinkOk : Nat → Bool) (code : SubmittedCode)
    (st st₂ : SysState) (body : List Stmt) (cap : Bool) (pe : PyError)
    (hp : parse_and_compile_code code = Except.ok (body, cap))
    (hex : execStmts body (sandboxEntry st) = (st₂, some pe)) :
    (run_python connected sinkOk code st emptyLog).output
      = "Error: " ++ traceback_format_exc pe ∧
    (∃ pre, (run_python connected sinkOk code st emptyLog).output
      = pre ++ pe.kind ++ ": " ++ pe.msg ++ "\n") ∧
    (run_python connected sinkOk code st emptyLog).state
      = { st₂ with stdoutTarget := st.stdoutTarget, stderrTarget := st.stderrTarget } ∧
    statuses (runEvents connected sinkOk code st)
      = ["processing", "executing", "error"] := by
  have hrun := run_python_execError connected sinkOk code st emptyLog body cap _ pe hp
    (execute_code_error body cap st st₂ pe hex)
  refine ⟨by rw [hrun], ?_, by rw [hrun], ?_⟩
  · refine ⟨"Error: "
      ++ "Traceback (most recent call last):\n  File \x22<agent-code>\x22, line 1, in <module>\n", ?_⟩
    rw [hrun]
    show "Error: " ++ traceback_format_exc pe = _
    rw [traceback_format_exc]
    simp only [str_append_assoc]
  · rw [runEvents, hrun]
    simp [statuses, requestLog_localLog, emptyLog, processingEvent, executingEvent, errorEvent]

/-- Witness for C2 (amended) at the raising script
`raise ValueError("boom")`. -/
theorem claim2_fault_handling_witness :
    ((run_python true (fun _ => true)
        (SubmittedCode.parsed [Stmt.raiseStmt "ValueError" "boom"])
        (initState []) emptyLog).output
      = "Error: " ++ traceback_format_exc ⟨"ValueError", "boom"⟩) ∧
    (∃ pre, (run_python true (fun _ => true)
        (SubmittedCode.parsed [Stmt.raiseStmt "ValueError" "boom"])
        (initState []) emptyLog).output
      = pre ++ (⟨"ValueError", "boom"⟩ : PyError).kind ++ ": "
          ++ (⟨"ValueError", "boom"⟩ : PyError).msg ++ "\n") :=
  ⟨(claim2_fault_handling true (fun _ => true)
      (SubmittedCode.parsed [Stmt.raiseStmt "ValueError" "boom"])
      (initState []) (sandboxEntry (initState []))
      [Stmt.raiseStmt "ValueError" "boom"] false ⟨"ValueError", "boom"⟩
      rfl (by decide)).1,
   (claim2_fault_handling true (fun _ => true)
      (SubmittedCode.parsed [Stmt.raiseStmt "ValueError" "boom"])
      (initState []) (sandboxEntry (initState []))
      [Stmt.raiseStmt "ValueError" "boom"] false ⟨"ValueError", "boom"⟩
      rfl (by decide)).2.1⟩

set_option maxRecDepth 8192 in
/-- Counterexample to C1 as stated: the source consisting of the single
bare expression `None` has a bare expression as its final top-level
statement, yet the returned string is empty — no Result section
reflecting the expression's value appears, because the code suppresses
a `None` captured value. -/
theorem claim1_counterexample :
    ([Stmt.exprStmt (Expr.lit Val.none)].getLast?
      = some (Stmt.exprStmt (Expr.lit Val.none))) ∧
    (run_python true (fun _ => true) (SubmittedCode.parsed [Stmt.exprStmt (Expr.lit Val.none)])
        (initState []) emptyLog).output = "" :=
  ⟨by decide, by decide⟩

/-- Claim C1 (amended): for a source whose final top-level statement is
a bare expression, when execution completes without fault the returned
string is the assembled output whose captured value is the expression's
value, and it ends with a Result section reflecting that value exactly
when the value is not `None`; for a source whose final statement is not
a bare expression, the assembled parts contain no Result section; and
after executing `x = 5`, submitting `print("hi"); x` returns exactly
`"Output:\nhi\n\nResult: 5\n"`. -/
theorem claim1_result_section (connected : Bool) (sinkOk : Nat → Bool) (stmts : List Stmt)
    (e : Expr) (st st₂ : SysState) :
    (stmts.getLast? = some (Stmt.exprStmt e) →
      execStmts (stmts.dropLast ++ [Stmt.assign "_ai_result" e]) (sandboxEntry st)
        = (st₂, Option.none) →
      ∃ v, envGet st₂.env "_ai_result" = some v ∧
        (run_python connected sinkOk (SubmittedCode.parsed stmts) st emptyLog).output
          = joinOutput (output_parts st₂.bufOut st₂.bufErr v) ∧
        (v ≠ Val.none → ∃ pre,
          (run_python connected sinkOk (SubmittedCode.parsed stmts) st emptyLog).output
            = pre ++ ("Result: " ++ v.pyRepr ++ "\n"))) ∧
    ((∀ e₀, stmts.getLast? ≠ some (Stmt.exprStmt e₀)) →
      execStmts stmts (sandboxEntry st) = (st₂, Option.none) →
      (run_python connected sinkOk (SubmittedCode.parsed stmts) st emptyLog).output
        = joinOutput (output_parts st₂.bufOut st₂.bufErr Val.none) ∧
      ∀ q ∈ output_parts st₂.bufOut st₂.bufErr Val.none, ∀ r, q ≠ "Result: " ++ r) ∧
    ((run_python true (fun _ => true) (SubmittedCode.parsed
        [Stmt.exprStmt (Expr.printE (Expr.lit (Val.str "hi"))), Stmt.exprStmt (Expr.var "x")])
        (run_python true (fun _ => true)
          (SubmittedCode.parsed [Stmt.assign "x" (Expr.lit (Val.int 5))])
          (initState []) emptyLog).state emptyLog).output
      = "Output:\nhi\n\nResult: 5\n") := by
  refine ⟨?_, ?_, by decide⟩
  · intro hlast hex
    have hp := parse_capture stmts e hlast
    obtain ⟨v, hv⟩ := execStmts_last_assign _ _ _ _ _ hex
    have hcap : capturedVal true st₂.env = v := by simp [capturedVal, hv]
    have hrun := run_python_ok connected sinkOk _ st emptyLog _ _ _ _ hp
      (execute_code_ok _ true st st₂ hex)
    refine ⟨v, hv, ?_, ?_⟩
    · rw [hrun]
      show joinOutput (output_parts st₂.bufOut st₂.bufErr (capturedVal true st₂.env)) = _
      rw [hcap]
    · intro hne
      obtain ⟨preS, hpre⟩ := joinOutput_last
        ((if st₂.bufOut ≠ "" then ["Output:\n" ++ st₂.bufOut] else [])
          ++ (if st₂.bufErr ≠ "" then ["Stderr:\n" ++ st₂.bufErr] else []))
        ("Result: " ++ v.pyRepr)
      refine ⟨preS, ?_⟩
      rw [hrun]
      show joinOutput (output_parts st₂.bufOut st₂.bufErr (capturedVal true st₂.env)) = _
      rw [hcap, output_parts_some_result st₂.bufOut st₂.bufErr v hne, hpre, str_append_assoc]
  · intro hne hex
    have hp := parse_no_capture stmts hne
    have hrun := run_python_ok connected sinkOk _ st emptyLog _ _ _ _ hp
      (execute_code_ok _ false st st₂ hex)
    refine ⟨?_, output_parts_none_no_result _ _⟩
    rw [hrun]
    rfl

/-- Witness for C1 (amended): the capturing call `2` (Result section
present) and the non-capturing call `pass` (no Result section). -/
theorem claim1_result_section_witness :
    ([Stmt.exprStmt (Expr.lit (Val.int 2))].getLast?
      = some (Stmt.exprStmt (Expr.lit (Val.int 2)))) ∧
    (execStmts ([Stmt.exprStmt (Expr.lit (Val.int 2))].dropLast
        ++ [Stmt.assign "_ai_result" (Expr.lit (Val.int 2))]) (sandboxEntry (initState []))
      = (⟨[("_ai_result", Val.int 2)], "", "", "", "",
          StreamTarget.buffer, StreamTarget.buffer⟩, Option.none)) ∧
    (∃ v, envGet (⟨[("_ai_result", Val.int 2)], "", "", "", "",
          StreamTarget.buffer, StreamTarget.buffer⟩ : SysState).env "_ai_result" = some v ∧
      (run_python true (fun _ => true)
          (SubmittedCode.parsed [Stmt.exprStmt (Expr.lit (Val.int 2))])
          (initState []) emptyLog).output
        = joinOutput (output_parts "" "" v) ∧
      (v ≠ Val.none → ∃ pre,
        (run_python true (fun _ => true)
            (SubmittedCode.parsed [Stmt.exprStmt (Expr.lit (Val.int 2))])
            (initState []) emptyLog).output
          = pre ++ ("Result: " ++ v.pyRepr ++ "\n"))) ∧
    (∀ q ∈ output_parts "" "" Val.none, ∀ r, q ≠ "Result: " ++ r) :=
  ⟨by decide, by decide,
   (claim1_result_section true (fun _ => true) [Stmt.exprStmt (Expr.lit (Val.int 2))]
      (Expr.lit (Val.int 2)) (initState [])
      ⟨[("_ai_result", Val.int 2)], "", "", "", "",
        StreamTarget.buffer, StreamTarget.buffer⟩).1 (by decide) (by decide),
   ((claim1_result_section true (fun _ => true) [Stmt.passStmt]
      (Expr.lit Val.none) (initState []) (sandboxEntry (initState []))).2.1
      (by intro e h; simp at h) rfl).2⟩

end DatasetScript
